import Mathlib

/-!
Shallow embedding of the data caching and retrieval layer of the
dash-fin-visualizations repository (`src/utils/data_manager.py` and
`src/utils/data_processing.py`).

Modelling conventions:
* Prices are rationals (`ℚ`); pandas `pct_change` over a column becomes an
  explicit recursion carrying the previous value, with `none` at the first row
  (pandas NaN).
* Time is measured in minutes: the `DataManager` cache duration of 24 hours is
  1440 minutes; the per-period ledger cadences of 1, 7 and 30 days are 1440,
  10080 and 43200 minutes.
* The provider (`yf.download` / `Ticker.history`) is an oracle
  `fetch : String → Nat → FetchResult` indexed by symbol and by attempt
  number; an exception and a successful call are `err` and `ok rows`
  (an empty `ok` models an empty DataFrame).  `DataManager.get_stock_data`
  calls the provider exactly once per symbol, which is attempt 1.
* File-system writes may fail: `saveOk : Bool` for the single combined cache
  file of `DataManager`, `writeOk : String → Nat → Bool` for the per-symbol
  CSV files of `get_segmented_data` (indexed by symbol and attempt).
* Logging is not modelled; every `logger.…` call in the source is a no-op
  here.
-/

namespace DashFin

/-- One raw OHLCV row as returned by the provider boundary
(date, open, high, low, close, adjusted close, volume). -/
structure RawRow where
  date : Nat
  open_ : ℚ
  high : ℚ
  low : ℚ
  close : ℚ
  adjClose : ℚ
  volume : Nat
deriving Repr, DecidableEq

/-- Outcome of one provider call: an exception, or a (possibly empty) frame. -/
inductive FetchResult where
  | err : FetchResult
  | ok : List RawRow → FetchResult
deriving Repr, DecidableEq

/-- `(x - p) / p` against an optional previous value: one step of pandas
`pct_change` (fractional scale). -/
def pctFrom (prev : Option ℚ) (x : ℚ) : Option ℚ :=
  prev.map (fun p => (x - p) / p)

/-! ## DataManager (`src/utils/data_manager.py`) -/

/-- A row of the combined cache table kept by `DataManager`: the required
columns Date, Adj Close, Close, High, Low, Open, Volume, Symbol, Pct_Change. -/
structure DMRow where
  date : Nat
  adjClose : ℚ
  close : ℚ
  high : ℚ
  low : ℚ
  open_ : ℚ
  volume : Nat
  symbol : String
  pctChange : Option ℚ
deriving Repr, DecidableEq

/-- The combined cache table plus its `timestamp` column (the fetch time,
present on every row; `none` models a table without a timestamp column). -/
structure Cache where
  rows : List DMRow
  timestamp : Option Nat
deriving Repr, DecidableEq

/-- `DataManager` state: the persisted cache file (`none` when absent or
unparsable) and the in-memory `self._data` slot. -/
structure DMState where
  cacheFile : Option Cache
  memData : Option Cache
deriving Repr, DecidableEq

/-- `self._data` after the initial `if self._data is None: self._data =
self._load_cache()` step of `get_stock_data`. -/
def dmMem (st : DMState) : Option Cache :=
  match st.memData with
  | none => st.cacheFile
  | some d => some d

/-- The 24-hour `cache_duration` of `DataManager`, in minutes. -/
def cacheDuration : Nat := 1440

/-- `cache_is_valid`: data loaded, non-empty, carrying a timestamp column,
and `now - last_update < cache_duration` (strict). -/
def cacheIsValid : Option Cache → Nat → Bool
  | none, _ => false
  | some c, now =>
    if c.rows.isEmpty then false
    else
      match c.timestamp with
      | none => false
      | some t => decide (now - t < cacheDuration)

/-- Worker for `DataManager._process_stock_data`: set the `Symbol` column and
compute `Pct_Change = stock_data['Adj Close'].pct_change()` (fractional),
carrying the previous adjusted close. -/
def processStockDataAux : Option ℚ → List RawRow → String → List DMRow
  | _, [], _ => []
  | prev, r :: rs, s =>
    { date := r.date, adjClose := r.adjClose, close := r.close, high := r.high,
      low := r.low, open_ := r.open_, volume := r.volume, symbol := s,
      pctChange := pctFrom prev r.adjClose } :: processStockDataAux (some r.adjClose) rs s

/-- `DataManager._process_stock_data` on a non-indexed frame. -/
def process_stock_data (rows : List RawRow) (s : String) : List DMRow :=
  processStockDataAux none rows s

/-- `symbol_data['Pct_Change'] = symbol_data['Adj Close'].pct_change()` inside
`DataManager._process_data`: recompute the column on an already-built slice. -/
def reattachPct : Option ℚ → List DMRow → List DMRow
  | _, [] => []
  | prev, r :: rs =>
    { r with pctChange := pctFrom prev r.adjClose } :: reattachPct (some r.adjClose) rs

/-- `DataManager._process_data`: split the combined table into per-symbol
frames for exactly the requested symbols, dropping symbols with no rows and
recomputing `Pct_Change` from `Adj Close` on each slice. -/
def process_data (rows : List DMRow) (symbols : List String) : List (String × List DMRow) :=
  symbols.filterMap (fun s =>
    if (rows.filter (fun r => decide (r.symbol = s))).isEmpty then none
    else some (s, reattachPct none (rows.filter (fun r => decide (r.symbol = s)))))

/-- Python-dict style lookup in an association list (first match). -/
def lookupSeries {α : Type} (m : List (String × α)) (s : String) : Option α :=
  (m.find? (fun e => decide (e.1 = s))).map Prod.snd

/-- The body of the per-symbol loop of `get_stock_data`: one `yf.download`
call (attempt 1), skipping the symbol on exception, on an empty frame, or on
an empty processed frame. -/
def fetchSymbol (fetch : String → Nat → FetchResult) (s : String) : Option (List DMRow) :=
  match fetch s 1 with
  | .err => none
  | .ok rows =>
    if rows.isEmpty then none
    else if (process_stock_data rows s).isEmpty then none
    else some (process_stock_data rows s)

/-- Result of one `get_stock_data` call: the mutated manager state, the trace
of provider calls made (one entry per `yf.download` call, in order), and the
returned symbol → frame mapping. -/
structure DMOutcome where
  state : DMState
  calls : List String
  result : List (String × List DMRow)
deriving Repr, DecidableEq

/-- `DataManager.get_stock_data(symbols, period)`: serve from the cache when
it is valid, otherwise fetch every requested symbol once, replace the
snapshot wholesale with the successfully fetched rows stamped `now`, persist
it (best-effort, controlled by `saveOk`), and return the per-symbol mapping;
return the empty mapping when nothing could be fetched. -/
def get_stock_data (fetch : String → Nat → FetchResult) (saveOk : Bool)
    (now : Nat) (st : DMState) (symbols : List String) : DMOutcome :=
  let mem := dmMem st
  if cacheIsValid mem now then
    { state := { st with memData := mem }, calls := [],
      result := process_data ((mem.getD ⟨[], none⟩).rows) symbols }
  else
    let allStockData := symbols.filterMap (fetchSymbol fetch)
    if allStockData.isEmpty then
      { state := { st with memData := mem }, calls := symbols, result := [] }
    else
      let combined : Cache := { rows := allStockData.flatten, timestamp := some now }
      { state := { cacheFile := if saveOk then some combined else st.cacheFile,
                   memData := some combined },
        calls := symbols,
        result := process_data combined.rows symbols }

/-! ## Sector registry and segmented pipeline (`src/utils/data_processing.py`) -/

/-- The module-level `sectors` dictionary: sector name → ticker list. -/
def sectors : List (String × List String) :=
  [ ("Energy - Fossil Fuels",
      ["COP", "EOG", "FANG", "HES", "OXY", "CNQ", "TPL", "CEO"]),
    ("Renewable Energy",
      ["NEE", "FSLR", "BEP", "ENPH", "CEG", "CLNE", "IBE", "ORA", "RNW",
       "BEPC", "INE", "PIF", "ADNA", "GAIL", "NTPC", "JSW"]),
    ("Uranium",
      ["CCJ", "NXE", "UEC", "DNN", "LEU", "UUUU", "EU", "URG"]),
    ("Chemicals",
      ["DOW", "LYB", "EMN", "CE", "BASFY", "DD", "HUN", "TROX", "BAK",
       "WLK", "APD"]),
    ("Transportation",
      ["GE", "UNP", "UPS", "CP", "FDX", "CNI", "CSX", "NSC", "DAL",
       "ODFL", "JBHT"]),
    ("Automobiles & Auto Parts",
      ["GPC", "APTV", "MGA", "LKQ", "F", "HMC", "TM", "TSLA", "GM", "STLA"]),
    ("Healthcare Services",
      ["HCSG", "AMN", "HCA", "CVS"]),
    ("Software & IT Services",
      ["MSFT", "GOOGL", "GOOG", "META", "V", "MA", "TCEHY", "ORCL", "NFLX",
       "CRM", "SAP", "NOW", "ACN", "IBM", "BABA", "ADBE", "PLTR", "SHOP",
       "UBER", "PANW", "ADP"]),
    ("Telecommunications",
      ["T", "TMUS", "VZ", "VOD", "RCI", "SFTBY", "CHL", "CHT", "TLSYY"]),
    ("Utilities",
      ["AES", "LNT", "AEE", "AEP", "D", "ATO", "CMS", "CNP", "XEL"]),
    ("Real Estate",
      ["PLD", "AMT", "EQIX", "WELL", "SPG", "DLR", "AVB", "CSGP", "EQR",
       "VICI"]) ]

/-- The module-level `symbols` list: all tickers in sector order (the list
comprehension at line 162, no deduplication). -/
def symbols : List String := (sectors.map Prod.snd).flatten

/-- Modelled from the spec: `get_all_symbols` is imported from
`utils.data_processing` by `pages/data.py`, `pages/financials.py` and
`pages/insider_trades.py` but is not defined anywhere in the repository
source; per the spec it returns the union of all tickers across sectors with
duplicates collapsed. -/
def get_all_symbols : List String := ((sectors.map Prod.snd).flatten).dedup

/-- `MAX_RETRY_ATTEMPTS` (line 165). -/
def MAX_RETRY_ATTEMPTS : Nat := 3

/-- The freshness ledger persisted in `data/cache_info.json`: period →
last-update time (minutes).  An absent file, invalid JSON, or a missing key
are all the absence of an entry. -/
abbrev Ledger : Type := List (String × Nat)

/-- JSON-dict lookup in the ledger (`period in cache_info` / access). -/
def lookupLedger (ledger : Ledger) (p : String) : Option Nat :=
  (List.find? (fun e => decide (e.1 = p)) ledger).map Prod.snd

/-- `update_cache_info`: set the period's entry to the given time. -/
def update_cache_info (ledger : Ledger) (p : String) (t : Nat) : Ledger :=
  (p, t) :: List.filter (fun e => decide (e.1 ≠ p)) ledger

/-- The `update_frequencies` table of `should_update_data`, in minutes, with
the `.get(period, timedelta(days=1))` default folded in. -/
def updateFrequency (period : String) : Nat :=
  if period = "1mo" then 1440
  else if period = "3mo" then 1440
  else if period = "6mo" then 1440
  else if period = "1y" then 1440
  else if period = "5y" then 10080
  else if period = "max" then 43200
  else 1440

/-- `should_update_data(period)`: a period with no ledger entry is stale;
otherwise stale iff `current_time - last_updated > update_frequencies.get(
period, 1 day)` (strict). -/
def should_update_data (ledger : Ledger) (now : Nat) (period : String) : Bool :=
  match lookupLedger ledger period with
  | none => true
  | some last => decide (now - last > updateFrequency period)

/-- A row of a per-symbol frame in the segmented pipeline: the provider's
columns plus the `Pct_Change` column added by `download_ticker_data`. -/
structure SegRow where
  date : Nat
  open_ : ℚ
  high : ℚ
  low : ℚ
  close : ℚ
  adjClose : ℚ
  volume : Nat
  pctChange : Option ℚ
deriving Repr, DecidableEq

/-- `df['Pct_Change'] = df['Close'].pct_change() * 100` (line 228): the
percentage-scale change of the *Close* column. -/
def attachPctClose : Option ℚ → List RawRow → List SegRow
  | _, [] => []
  | prev, r :: rs =>
    { date := r.date, open_ := r.open_, high := r.high, low := r.low,
      close := r.close, adjClose := r.adjClose, volume := r.volume,
      pctChange := (pctFrom prev r.close).map (fun q => q * 100) } ::
      attachPctClose (some r.close) rs

/-- `download_ticker_data(symbol, period)`: one `Ticker.history` call; an
exception or an empty frame yields an empty frame, otherwise the rows with
`Pct_Change` computed from Close at percentage scale. -/
def download_ticker_data (fetch : String → FetchResult) (s : String) : List SegRow :=
  match fetch s with
  | .err => []
  | .ok rows => if rows.isEmpty then [] else attachPctClose none rows

/-- Recomputation of a missing `Pct_Change` column on a cached frame
(line 262), again from Close at percentage scale. -/
def recalcPctClose : Option ℚ → List SegRow → List SegRow
  | _, [] => []
  | prev, r :: rs =>
    { r with pctChange := (pctFrom prev r.close).map (fun q => q * 100) } ::
      recalcPctClose (some r.close) rs

/-- Contents of one `data/{symbol}_{period}.csv` file; `hasPct` records
whether the `Pct_Change` column is present. -/
structure FileData where
  rows : List SegRow
  hasPct : Bool
deriving Repr, DecidableEq

/-- The per-symbol-per-period CSV files, keyed by (symbol, period). -/
abbrev FileStore : Type := List ((String × String) × FileData)

/-- `os.path.exists` + read of one per-symbol CSV. -/
def lookupFile (files : FileStore) (s period : String) : Option FileData :=
  (List.find? (fun e => decide (e.1 = (s, period))) files).map Prod.snd

/-- Overwrite of one per-symbol CSV. -/
def updateFile (files : FileStore) (s period : String) (fd : FileData) : FileStore :=
  ((s, period), fd) :: List.filter (fun e => decide (e.1 ≠ (s, period))) files

/-- The retry loop `for attempt in range(1, MAX_RETRY_ATTEMPTS + 1)` of
`get_segmented_data` for one symbol, starting at `attempt` with the given
number of remaining attempts: each iteration downloads once (recorded in the
trace); a non-empty frame whose CSV write succeeds breaks the loop with the
frame; an empty frame, or a failed CSV write, falls through to the next
attempt. -/
def segRetry (fetch : String → Nat → FetchResult) (writeOk : String → Nat → Bool)
    (s : String) : Nat → Nat → Option (List SegRow) × List String
  | _, 0 => (none, [])
  | attempt, fuel + 1 =>
    let df := download_ticker_data (fun s2 => fetch s2 attempt) s
    if df.isEmpty then
      let r := segRetry fetch writeOk s (attempt + 1) fuel
      (r.1, s :: r.2)
    else if writeOk s attempt then (some df, [s])
    else
      let r := segRetry fetch writeOk s (attempt + 1) fuel
      (r.1, s :: r.2)

/-- Accumulator of the symbol loop of `get_segmented_data`: the `all_data`
mapping, the file store, and the trace of `download_ticker_data` calls. -/
structure SegAcc where
  data : List (String × List SegRow)
  files : FileStore
  trace : List String
deriving Repr, DecidableEq

/-- The download path of the loop body: run the bounded retry; on success add
the frame to `all_data` and write the CSV, otherwise leave `all_data` alone. -/
def segDownload (fetch : String → Nat → FetchResult) (writeOk : String → Nat → Bool)
    (period : String) (acc : SegAcc) (s : String) : SegAcc :=
  let r := segRetry fetch writeOk s 1 MAX_RETRY_ATTEMPTS
  match r.1 with
  | some df =>
    { data := acc.data ++ [(s, df)],
      files := updateFile acc.files s period ⟨df, true⟩,
      trace := acc.trace ++ r.2 }
  | none => { acc with trace := acc.trace ++ r.2 }

/-- One iteration of the symbol loop of `get_segmented_data`: when the CSV
exists and no update is needed, serve it from disk (recomputing and rewriting
a missing `Pct_Change` column; a failed rewrite falls through to the download
path, as the write happens inside the load `try`); otherwise download with
bounded retries.  The rewrite of the recomputed column is attempt 0 of
`writeOk`. -/
def segStep (fetch : String → Nat → FetchResult) (writeOk : String → Nat → Bool)
    (period : String) (updateNeeded : Bool) (acc : SegAcc) (s : String) : SegAcc :=
  match lookupFile acc.files s period, updateNeeded with
  | some fd, false =>
    if fd.hasPct then { acc with data := acc.data ++ [(s, fd.rows)] }
    else
      let rows := recalcPctClose none fd.rows
      if writeOk s 0 then
        { acc with data := acc.data ++ [(s, rows)],
                   files := updateFile acc.files s period ⟨rows, true⟩ }
      else segDownload fetch writeOk period acc s
  | _, _ => segDownload fetch writeOk period acc s

/-- The iteration order of `for sector, sector_symbols in sectors.items():
for symbol in sector_symbols:`. -/
def allSectorSymbols : List String := (sectors.map Prod.snd).flatten

/-- State visible to `get_segmented_data`: the per-symbol CSVs and the
freshness ledger. -/
structure SegState where
  files : FileStore
  ledger : Ledger
deriving Repr, DecidableEq

/-- Result of one `get_segmented_data` call: the returned `all_data` mapping
and the mutated files, ledger and download trace. -/
structure SegOutcome where
  data : List (String × List SegRow)
  files : FileStore
  ledger : Ledger
  trace : List String
deriving Repr, DecidableEq

/-- `get_segmented_data(period)`: decide staleness once, run the symbol loop
over every sector's tickers, and record the refresh in the ledger when an
update was needed and at least one symbol produced data. -/
def get_segmented_data (fetch : String → Nat → FetchResult)
    (writeOk : String → Nat → Bool) (st : SegState) (now : Nat)
    (period : String) : SegOutcome :=
  let updateNeeded := should_update_data st.ledger now period
  let acc := allSectorSymbols.foldl (segStep fetch writeOk period updateNeeded)
    { data := [], files := st.files, trace := [] }
  let ledger2 :=
    if updateNeeded && !acc.data.isEmpty then update_cache_info st.ledger period now
    else st.ledger
  { data := acc.data, files := acc.files, ledger := ledger2, trace := acc.trace }

/-! ## Helper lemmas -/

/-- Sample rows used by concrete counterexamples and witnesses.  `rawA` and
`rawB` have diverging Close (100 → 110) and Adj Close (100 → 120) columns. -/
def rawA : RawRow := ⟨0, 100, 100, 100, 100, 100, 10⟩

def rawB : RawRow := ⟨1, 110, 110, 110, 110, 120, 10⟩

def dmRowA : DMRow := ⟨0, 100, 100, 100, 100, 100, 10, "COP", none⟩

theorem mem_processStockDataAux : ∀ (prev : Option ℚ) (rows : List RawRow)
    (s : String) (r : DMRow), r ∈ processStockDataAux prev rows s → r.symbol = s := by
  intro prev rows
  induction rows generalizing prev with
  | nil => intro s r h; simp [processStockDataAux] at h
  | cons a as ih =>
    intro s r h
    rw [processStockDataAux] at h
    rcases List.mem_cons.mp h with h | h
    · subst h; rfl
    · exact ih _ _ _ h

theorem fetchSymbol_some_symbol {fetch : String → Nat → FetchResult}
    {s : String} {l : List DMRow} {r : DMRow}
    (h : fetchSymbol fetch s = some l) (hr : r ∈ l) : r.symbol = s := by
  unfold fetchSymbol at h
  rcases hf : fetch s 1 with _ | rows <;> rw [hf] at h <;> dsimp only at h
  · exact absurd h (by simp)
  · by_cases he : rows.isEmpty = true
    · rw [if_pos he] at h; exact absurd h (by simp)
    · rw [if_neg he] at h
      by_cases hp : (process_stock_data rows s).isEmpty = true
      · rw [if_pos hp] at h; exact absurd h (by simp)
      · rw [if_neg hp, Option.some.injEq] at h
        subst h
        exact mem_processStockDataAux none rows s r hr

theorem lookupSeries_eq_none {α : Type} {m : List (String × α)} {s : String}
    (h : ∀ e ∈ m, e.1 ≠ s) : lookupSeries m s = none := by
  unfold lookupSeries
  rw [Option.map_eq_none', List.find?_eq_none]
  intro e he
  simpa using h e he

theorem mem_process_data {rows : List DMRow} {syms : List String}
    {e : String × List DMRow} (h : e ∈ process_data rows syms) :
    rows.filter (fun r => decide (r.symbol = e.1)) ≠ [] ∧ e.1 ∈ syms := by
  unfold process_data at h
  rw [List.mem_filterMap] at h
  obtain ⟨s2, hs2, hf⟩ := h
  by_cases he : (rows.filter (fun r => decide (r.symbol = s2))).isEmpty = true
  · rw [if_pos he] at hf; exact absurd hf (by simp)
  · rw [if_neg he, Option.some.injEq] at hf
    subst hf
    refine ⟨?_, hs2⟩
    simpa [List.isEmpty_iff] using he

theorem lookupSeries_process_data_none {rows : List DMRow} {s : String}
    (syms : List String)
    (h : rows.filter (fun r => decide (r.symbol = s)) = []) :
    lookupSeries (process_data rows syms) s = none := by
  apply lookupSeries_eq_none
  intro e he hes
  obtain ⟨hne, -⟩ := mem_process_data he
  rw [hes] at hne
  exact hne h

theorem filter_flatten_eq_nil (fetch : String → Nat → FetchResult)
    (syms : List String) (s : String) (h : fetchSymbol fetch s = none) :
    ((syms.filterMap (fetchSymbol fetch)).flatten).filter
      (fun r => decide (r.symbol = s)) = [] := by
  rw [List.filter_eq_nil_iff]
  intro r hr
  simp only [decide_eq_true_eq]
  rw [List.mem_flatten] at hr
  obtain ⟨l, hl, hrl⟩ := hr
  rw [List.mem_filterMap] at hl
  obtain ⟨s2, _, hs2⟩ := hl
  intro hsym
  rw [fetchSymbol_some_symbol hs2 hrl] at hsym
  subst hsym
  rw [h] at hs2
  exact absurd hs2 (by simp)

theorem cacheIsValid_some {mem : Option Cache} {now : Nat}
    (h : cacheIsValid mem now = true) : ∃ c, mem = some c := by
  cases mem with
  | none => exact absurd h (by simp [cacheIsValid])
  | some c => exact ⟨c, rfl⟩

theorem fetchSymbol_eq_none {fetch : String → Nat → FetchResult} {s : String}
    (h : fetch s 1 = FetchResult.err ∨ fetch s 1 = FetchResult.ok []) :
    fetchSymbol fetch s = none := by
  unfold fetchSymbol
  rcases h with h | h <;> first | (rw [h]; rfl) | rw [h]

theorem get_stock_data_calls {fetch : String → Nat → FetchResult}
    {saveOk : Bool} {now : Nat} {st : DMState} {syms : List String}
    (hv : cacheIsValid (dmMem st) now = false) :
    (get_stock_data fetch saveOk now st syms).calls = syms := by
  simp only [get_stock_data, hv, Bool.false_eq_true, if_false]
  by_cases he : (syms.filterMap (fetchSymbol fetch)).isEmpty = true
  · rw [if_pos he]
  · rw [if_neg he]

theorem get_stock_data_lookup_none {fetch : String → Nat → FetchResult}
    {saveOk : Bool} {now : Nat} {st : DMState} {syms : List String} {s : String}
    (hv : cacheIsValid (dmMem st) now = false)
    (hs : fetchSymbol fetch s = none) :
    lookupSeries (get_stock_data fetch saveOk now st syms).result s = none := by
  simp only [get_stock_data, hv, Bool.false_eq_true, if_false]
  by_cases he : (syms.filterMap (fetchSymbol fetch)).isEmpty = true
  · rw [if_pos he]
    rfl
  · rw [if_neg he]
    exact lookupSeries_process_data_none syms (filter_flatten_eq_nil fetch syms s hs)

theorem get_stock_data_result_nil {fetch : String → Nat → FetchResult}
    {saveOk : Bool} {now : Nat} {st : DMState} {syms : List String}
    (hv : cacheIsValid (dmMem st) now = false)
    (h : ∀ s ∈ syms, fetchSymbol fetch s = none) :
    (get_stock_data fetch saveOk now st syms).result = [] := by
  have hfm : syms.filterMap (fetchSymbol fetch) = [] := by
    rw [List.filterMap_eq_nil_iff]
    exact h
  simp only [get_stock_data, hv, Bool.false_eq_true, if_false, hfm,
    List.isEmpty_nil, if_true]

/-- Three copies of each element, in order: the download trace produced when
every symbol consumes all `MAX_RETRY_ATTEMPTS` attempts. -/
def tripled : List String → List String
  | [] => []
  | s :: rest => s :: s :: s :: tripled rest

theorem download_ticker_data_eq_nil {fetch1 : String → FetchResult} {s : String}
    (h : fetch1 s = FetchResult.err ∨ fetch1 s = FetchResult.ok []) :
    download_ticker_data fetch1 s = [] := by
  unfold download_ticker_data
  rcases h with h | h <;> first | (rw [h]; rfl) | rw [h]

theorem segRetry_noData {fetch : String → Nat → FetchResult}
    {writeOk : String → Nat → Bool} {s : String}
    (h : ∀ a, download_ticker_data (fun s2 => fetch s2 a) s = []) :
    ∀ attempt fuel, segRetry fetch writeOk s attempt fuel =
      (none, List.replicate fuel s) := by
  intro attempt fuel
  induction fuel generalizing attempt with
  | zero => rfl
  | succ n ih =>
    rw [segRetry, h attempt]
    simp only [List.isEmpty_nil, if_true, ih]
    rfl

theorem segRetry_writeFail {fetch : String → Nat → FetchResult}
    {writeOk : String → Nat → Bool} {s : String}
    (h : ∀ a, writeOk s a = false) :
    ∀ attempt fuel, segRetry fetch writeOk s attempt fuel =
      (none, List.replicate fuel s) := by
  intro attempt fuel
  induction fuel generalizing attempt with
  | zero => rfl
  | succ n ih =>
    rw [segRetry]
    by_cases hd : (download_ticker_data (fun s2 => fetch s2 attempt) s).isEmpty = true
    · rw [if_pos hd, ih]
      rfl
    · rw [if_neg hd, h attempt]
      simp only [Bool.false_eq_true, if_false, ih]
      rfl

theorem segStep_updateNeeded (fetch : String → Nat → FetchResult)
    (writeOk : String → Nat → Bool) (period : String) (acc : SegAcc) (s : String) :
    segStep fetch writeOk period true acc s = segDownload fetch writeOk period acc s := by
  unfold segStep
  rcases lookupFile acc.files s period with _ | fd <;> rfl

theorem foldl_segStep_dropAll (fetch : String → Nat → FetchResult)
    (writeOk : String → Nat → Bool) (period : String) :
    ∀ (syms : List String) (acc : SegAcc),
    (∀ s ∈ syms, segRetry fetch writeOk s 1 MAX_RETRY_ATTEMPTS =
      (none, List.replicate 3 s)) →
    syms.foldl (segStep fetch writeOk period true) acc =
      ⟨acc.data, acc.files, acc.trace ++ tripled syms⟩ := by
  intro syms
  induction syms with
  | nil => intro acc _; simp [tripled]
  | cons s rest ih =>
    intro acc h
    rw [List.foldl_cons, segStep_updateNeeded]
    have hs := h s (List.mem_cons_self s rest)
    unfold segDownload
    rw [hs]
    dsimp only
    rw [ih _ (fun s2 hs2 => h s2 (List.mem_cons_of_mem _ hs2))]
    dsimp only [tripled]
    simp [List.replicate, List.append_assoc]

theorem get_segmented_data_dropAll (fetch : String → Nat → FetchResult)
    (writeOk : String → Nat → Bool) (st : SegState) (now : Nat) (period : String)
    (hupd : should_update_data st.ledger now period = true)
    (h : ∀ s, segRetry fetch writeOk s 1 MAX_RETRY_ATTEMPTS =
      (none, List.replicate 3 s)) :
    (get_segmented_data fetch writeOk st now period).data = [] ∧
    (get_segmented_data fetch writeOk st now period).trace = tripled allSectorSymbols := by
  simp only [get_segmented_data, hupd]
  rw [foldl_segStep_dropAll fetch writeOk period allSectorSymbols _
    (fun s _ => h s)]
  exact ⟨rfl, by simp⟩

/-- Modelled from the spec: the fractional change of a column from its prior
element, undefined at the first element (worker carrying the prior value). -/
def specFracChangeAux : ℚ → List ℚ → List (Option ℚ)
  | _, [] => []
  | p, x :: xs => some ((x - p) / p) :: specFracChangeAux x xs

/-- Modelled from the spec: `percent_change` at fractional scale — undefined
for the first row, `(x_i - x_(i-1)) / x_(i-1)` afterwards. -/
def specFracChange : List ℚ → List (Option ℚ)
  | [] => []
  | x :: xs => none :: specFracChangeAux x xs

theorem reattachPct_map_aux : ∀ (p : ℚ) (rows : List DMRow),
    (reattachPct (some p) rows).map (fun r => r.pctChange) =
      specFracChangeAux p (rows.map (fun r => r.adjClose)) := by
  intro p rows
  induction rows generalizing p with
  | nil => rfl
  | cons r rs ih => simp [reattachPct, specFracChangeAux, pctFrom, ih]

theorem reattachPct_map :
    ∀ rows : List DMRow, (reattachPct none rows).map (fun r => r.pctChange) =
      specFracChange (rows.map (fun r => r.adjClose)) := by
  intro rows
  cases rows with
  | nil => rfl
  | cons r rs =>
    simp [reattachPct, specFracChange, pctFrom, reattachPct_map_aux]

theorem processStockDataAux_map : ∀ (s : String) (p : ℚ) (rows : List RawRow),
    (processStockDataAux (some p) rows s).map (fun r => r.pctChange) =
      specFracChangeAux p (rows.map (fun r => r.adjClose)) := by
  intro s p rows
  induction rows generalizing p with
  | nil => rfl
  | cons r rs ih => simp [processStockDataAux, specFracChangeAux, pctFrom, ih]

theorem process_stock_data_map :
    ∀ (rows : List RawRow) (s : String),
    (process_stock_data rows s).map (fun r => r.pctChange) =
      specFracChange (rows.map (fun r => r.adjClose)) := by
  intro rows s
  cases rows with
  | nil => rfl
  | cons r rs =>
    simp [process_stock_data, processStockDataAux, specFracChange, pctFrom,
      processStockDataAux_map]

theorem attachPctClose_map_aux : ∀ (p : ℚ) (rows : List RawRow),
    (attachPctClose (some p) rows).map (fun r => r.pctChange) =
      (specFracChangeAux p (rows.map (fun r => r.close))).map
        (Option.map (fun q => q * 100)) := by
  intro p rows
  induction rows generalizing p with
  | nil => rfl
  | cons r rs ih => simp [attachPctClose, specFracChangeAux, pctFrom, ih]

theorem attachPctClose_map :
    ∀ rows : List RawRow, (attachPctClose none rows).map (fun r => r.pctChange) =
      (specFracChange (rows.map (fun r => r.close))).map
        (Option.map (fun q => q * 100)) := by
  intro rows
  cases rows with
  | nil => rfl
  | cons r rs =>
    simp [attachPctClose, specFracChange, pctFrom, attachPctClose_map_aux]

/-! ## Claim theorems -/

/-- C3 counterexample: on provider rows whose Close column moves 100 → 110
while the Adj Close column moves 100 → 120, `download_ticker_data` computes
the second row's `Pct_Change` as `10` — the ×100 change of *Close* — which is
neither the fractional change of adjusted close (`1/5`) nor its ×100 variant
(`20`); so the segmented pipeline's percent_change is not computed from the
adjusted close column. -/
theorem claim_C3_counterexample :
    ((download_ticker_data (fun _ => FetchResult.ok [rawA, rawB]) "TSLA").map
        (fun r => r.pctChange)) = [none, some 10] ∧
    some (10 : ℚ) ≠ some ((120 - 100 : ℚ) / 100) ∧
    some (10 : ℚ) ≠ some (((120 - 100 : ℚ) / 100) * 100) := by
  refine ⟨?_, by norm_num, by norm_num⟩
  norm_num [download_ticker_data, attachPctClose, pctFrom, rawA, rawB]

/-- C3 amended: `percent_change` is undefined at a series' first row and at
every later row is the change from the prior row, but the column and scale
differ by pipeline: the `DataManager` pipeline (`_process_stock_data` and
`_process_data`) computes the *fractional* change of *Adj Close* (so
adjusted closes [100, 110, 99] give [absent, 0.10, -0.10]), while the
segmented pipeline's `download_ticker_data` computes the *×100* change of
the *Close* column. -/
theorem claim_C3_amended :
    (∀ rows : List DMRow,
        (reattachPct none rows).map (fun r => r.pctChange) =
          specFracChange (rows.map (fun r => r.adjClose))) ∧
    (∀ (rows : List RawRow) (s : String),
        (process_stock_data rows s).map (fun r => r.pctChange) =
          specFracChange (rows.map (fun r => r.adjClose))) ∧
    (∀ rows : List RawRow,
        (attachPctClose none rows).map (fun r => r.pctChange) =
          (specFracChange (rows.map (fun r => r.close))).map
            (Option.map (fun q => q * 100))) ∧
    specFracChange [100, 110, 99] = [none, some (1/10), some (-(1/10))] := by
  refine ⟨reattachPct_map, process_stock_data_map, attachPctClose_map, ?_⟩
  norm_num [specFracChange, specFracChangeAux]

/-- C4: the Sector Registry's `get_all_symbols` (absent from the source,
modelled from the spec) takes no arguments, is total, and returns every
ticker appearing in some sector exactly once: the result has no duplicates
and contains a symbol iff some sector lists it. -/
theorem claim_C4 :
    get_all_symbols.Nodup ∧
    ∀ s, s ∈ get_all_symbols ↔ ∃ p ∈ sectors, s ∈ p.2 := by
  constructor
  · exact List.nodup_dedup _
  · intro s
    rw [get_all_symbols, List.mem_dedup, List.mem_flatten]
    constructor
    · rintro ⟨l, hl, hs⟩
      rw [List.mem_map] at hl
      obtain ⟨p, hp, rfl⟩ := hl
      exact ⟨p, hp, hs⟩
    · rintro ⟨p, hp, hs⟩
      exact ⟨p.2, List.mem_map_of_mem Prod.snd hp, hs⟩

/-- C5: under `should_update_data`, a period with no ledger entry is always
stale, and a recorded period is stale exactly according to its cadence — a
1-day (1440-minute) threshold for "1mo", "3mo", "6mo" and "1y", a 7-day
(10080-minute) threshold for "5y", and a 30-day (43200-minute) threshold for
"max". -/
theorem claim_C5 (ledger : Ledger) (now : Nat) :
    (∀ p, lookupLedger ledger p = none → should_update_data ledger now p = true) ∧
    (∀ d, lookupLedger ledger "1mo" = some d →
      (should_update_data ledger now "1mo" = true ↔ now - d > 1440)) ∧
    (∀ d, lookupLedger ledger "3mo" = some d →
      (should_update_data ledger now "3mo" = true ↔ now - d > 1440)) ∧
    (∀ d, lookupLedger ledger "6mo" = some d →
      (should_update_data ledger now "6mo" = true ↔ now - d > 1440)) ∧
    (∀ d, lookupLedger ledger "1y" = some d →
      (should_update_data ledger now "1y" = true ↔ now - d > 1440)) ∧
    (∀ d, lookupLedger ledger "5y" = some d →
      (should_update_data ledger now "5y" = true ↔ now - d > 10080)) ∧
    (∀ d, lookupLedger ledger "max" = some d →
      (should_update_data ledger now "max" = true ↔ now - d > 43200)) := by
  refine ⟨fun p hp => ?_, fun d hd => ?_, fun d hd => ?_, fun d hd => ?_,
    fun d hd => ?_, fun d hd => ?_, fun d hd => ?_⟩
  · rw [should_update_data, hp]
  all_goals rw [should_update_data, hd]; simp [updateFrequency]

/-- C5 witness: an unrecorded period is stale, and a "5y" entry whose age is
exactly one week is not yet stale. -/
theorem claim_C5_witness :
    should_update_data [] 5 "1mo" = true ∧
    ¬ should_update_data [("5y", 0)] 10080 "5y" = true := by
  constructor
  · exact (claim_C5 [] 5).1 "1mo" rfl
  · intro hcontra
    have h := ((claim_C5 [("5y", 0)] 10080).2.2.2.2.2.1 0 rfl).mp hcontra
    omega

/-- C10: every period outside the cadence table — including the
provider-boundary periods "5d" and "2y" — gets the default 1-day
(1440-minute) threshold, and staleness is strict: age exactly equal to the
threshold is still fresh. -/
theorem claim_C10 (ledger : Ledger) (now : Nat) :
    (∀ d, lookupLedger ledger "5d" = some d →
      (should_update_data ledger now "5d" = true ↔ now - d > 1440)) ∧
    (∀ d, lookupLedger ledger "2y" = some d →
      (should_update_data ledger now "2y" = true ↔ now - d > 1440)) ∧
    (∀ p d, lookupLedger ledger p = some d → now - d = updateFrequency p →
      should_update_data ledger now p = false) := by
  refine ⟨fun d hd => ?_, fun d hd => ?_, fun p d hd hage => ?_⟩ <;>
    rw [should_update_data] <;> rw [hd]
  · simp [updateFrequency]
  · simp [updateFrequency]
  · simp [hage]

/-- C10 witness: a "2y" entry aged exactly 1440 minutes is fresh and one aged
1441 minutes is stale. -/
theorem claim_C10_witness :
    should_update_data [("2y", 0)] 1440 "2y" = false ∧
    should_update_data [("2y", 0)] 1441 "2y" = true := by
  constructor
  · exact (claim_C10 [("2y", 0)] 1440).2.2 "2y" 0 rfl rfl
  · exact ((claim_C10 [("2y", 0)] 1441).2.1 0 rfl).mpr (by omega)

/-- Reduction of `get_stock_data` on a valid cache. -/
theorem get_stock_data_valid {fetch : String → Nat → FetchResult} {saveOk : Bool}
    {now : Nat} {st : DMState} {syms : List String}
    (h : cacheIsValid (dmMem st) now = true) :
    get_stock_data fetch saveOk now st syms =
      { state := ⟨st.cacheFile, dmMem st⟩, calls := [],
        result := process_data ((dmMem st).getD ⟨[], none⟩).rows syms } := by
  simp only [get_stock_data, h, if_true]

/-- Reduction of `get_stock_data` on a stale cache when at least one symbol
succeeds. -/
theorem get_stock_data_stale {fetch : String → Nat → FetchResult} {saveOk : Bool}
    {now : Nat} {st : DMState} {syms : List String}
    (hv : cacheIsValid (dmMem st) now = false)
    (he : (syms.filterMap (fetchSymbol fetch)).isEmpty = false) :
    get_stock_data fetch saveOk now st syms =
      { state := ⟨(if saveOk then
            some ⟨(syms.filterMap (fetchSymbol fetch)).flatten, some now⟩
          else st.cacheFile),
          some ⟨(syms.filterMap (fetchSymbol fetch)).flatten, some now⟩⟩,
        calls := syms,
        result := process_data ((syms.filterMap (fetchSymbol fetch)).flatten) syms } := by
  simp only [get_stock_data, hv, Bool.false_eq_true, if_false, he]

/-- C1 counterexample: with a provider that raises on attempt 1 for "COP" but
would succeed on any later attempt, `DataManager.get_stock_data` on an empty
cache performs exactly one provider call for "COP" and drops the symbol: the
entry point never retries, contradicting the claimed 3-attempt retry bound. -/
theorem claim_C1_counterexample :
    (get_stock_data
        (fun _ a => if a = 1 then FetchResult.err else FetchResult.ok [rawA])
        true 0 ⟨none, none⟩ ["COP"]).calls = ["COP"] ∧
    lookupSeries (get_stock_data
        (fun _ a => if a = 1 then FetchResult.err else FetchResult.ok [rawA])
        true 0 ⟨none, none⟩ ["COP"]).result "COP" = none ∧
    (fun (_ : String) (a : Nat) =>
      if a = 1 then FetchResult.err else FetchResult.ok [rawA]) "COP" 2 ≠
      FetchResult.err := by
  refine ⟨rfl, rfl, by decide⟩

/-- C1 amended: only `get_segmented_data` retries a failed fetch, re-calling
the provider with the same parameters up to `MAX_RETRY_ATTEMPTS = 3` times
per symbol and dropping (not failing on) a symbol whose every attempt fails;
`DataManager.get_stock_data` calls the provider exactly once per requested
symbol with no retry, likewise dropping a failed symbol from the returned
mapping instead of raising. -/
theorem claim_C1_amended :
    (∀ (fetch : String → Nat → FetchResult) (writeOk : String → Nat → Bool)
        (st : SegState) (now : Nat) (period : String),
      (∀ s a, fetch s a = FetchResult.err) →
      should_update_data st.ledger now period = true →
      (get_segmented_data fetch writeOk st now period).trace =
        tripled allSectorSymbols ∧
      (get_segmented_data fetch writeOk st now period).data = []) ∧
    (∀ (fetch : String → Nat → FetchResult) (saveOk : Bool) (now : Nat)
        (st : DMState) (syms : List String) (s : String),
      cacheIsValid (dmMem st) now = false →
      (get_stock_data fetch saveOk now st syms).calls = syms ∧
      (fetch s 1 = FetchResult.err →
        lookupSeries (get_stock_data fetch saveOk now st syms).result s = none)) := by
  constructor
  · intro fetch writeOk st now period hf hupd
    have h := get_segmented_data_dropAll fetch writeOk st now period hupd
      (fun s => segRetry_noData
        (fun a => download_ticker_data_eq_nil (Or.inl (hf s a))) 1 MAX_RETRY_ATTEMPTS)
    exact ⟨h.2, h.1⟩
  · intro fetch saveOk now st syms s hv
    exact ⟨get_stock_data_calls hv,
      fun hf => get_stock_data_lookup_none hv (fetchSymbol_eq_none (Or.inl hf))⟩

/-- C1 witness: with an always-failing provider and an empty ledger, the
segmented call returns the empty mapping, and a stale-cache `get_stock_data`
call for "COP" performs exactly the one listed provider call. -/
theorem claim_C1_witness :
    (get_segmented_data (fun _ _ => FetchResult.err) (fun _ _ => true)
      ⟨[], []⟩ 0 "1mo").data = [] ∧
    (get_stock_data (fun _ _ => FetchResult.err) true 0 ⟨none, none⟩
      ["COP"]).calls = ["COP"] :=
  ⟨(claim_C1_amended.1 (fun _ _ => FetchResult.err) (fun _ _ => true)
      ⟨[], []⟩ 0 "1mo" (fun _ _ => rfl) rfl).2,
    (claim_C1_amended.2 (fun _ _ => FetchResult.err) true 0 ⟨none, none⟩
      ["COP"] "COP" rfl).1⟩

/-- C2: when every requested symbol's provider call fails (exception or empty
frame), both entry points return the empty mapping instead of propagating an
error: `get_stock_data` on a stale cache and `get_segmented_data` on a stale
period both yield an empty result. -/
theorem claim_C2 :
    (∀ (fetch : String → Nat → FetchResult) (saveOk : Bool) (now : Nat)
        (st : DMState) (syms : List String),
      (∀ s, fetch s 1 = FetchResult.err ∨ fetch s 1 = FetchResult.ok []) →
      cacheIsValid (dmMem st) now = false →
      (get_stock_data fetch saveOk now st syms).result = []) ∧
    (∀ (fetch : String → Nat → FetchResult) (writeOk : String → Nat → Bool)
        (st : SegState) (now : Nat) (period : String),
      (∀ s a, fetch s a = FetchResult.err ∨ fetch s a = FetchResult.ok []) →
      should_update_data st.ledger now period = true →
      (get_segmented_data fetch writeOk st now period).data = []) := by
  constructor
  · intro fetch saveOk now st syms hf hv
    exact get_stock_data_result_nil hv (fun s _ => fetchSymbol_eq_none (hf s))
  · intro fetch writeOk st now period hf hupd
    exact (get_segmented_data_dropAll fetch writeOk st now period hupd
      (fun s => segRetry_noData
        (fun a => download_ticker_data_eq_nil (hf s a)) 1 MAX_RETRY_ATTEMPTS)).1

/-- C2 witness: a provider returning an empty frame everywhere yields an
empty mapping from both entry points. -/
theorem claim_C2_witness :
    (get_stock_data (fun _ _ => FetchResult.ok []) true 0 ⟨none, none⟩
      ["COP", "EOG"]).result = [] ∧
    (get_segmented_data (fun _ _ => FetchResult.ok []) (fun _ _ => true)
      ⟨[], []⟩ 0 "1y").data = [] :=
  ⟨claim_C2.1 (fun _ _ => FetchResult.ok []) true 0 ⟨none, none⟩
      ["COP", "EOG"] (fun _ => Or.inr rfl) rfl,
    claim_C2.2 (fun _ _ => FetchResult.ok []) (fun _ _ => true)
      ⟨[], []⟩ 0 "1y" (fun _ _ => Or.inr rfl) rfl⟩

/-- C6 counterexample: in `get_segmented_data`, with a provider whose fetch
for "COP" succeeds (a non-empty frame on every attempt) but with every CSV
write failing, the symbol is *absent* from the returned mapping — a cache
persistence failure is not logged-only on this path, contradicting the
claim. -/
theorem claim_C6_counterexample :
    download_ticker_data (fun _ => FetchResult.ok [rawA, rawB]) "COP" ≠ [] ∧
    lookupSeries (get_segmented_data (fun _ _ => FetchResult.ok [rawA, rawB])
        (fun _ _ => false) ⟨[], []⟩ 0 "1mo").data "COP" = none := by
  constructor
  · decide
  · have h := (get_segmented_data_dropAll (fun _ _ => FetchResult.ok [rawA, rawB])
      (fun _ _ => false) ⟨[], []⟩ 0 "1mo" rfl
      (fun s => segRetry_writeFail (fun _ => rfl) 1 MAX_RETRY_ATTEMPTS)).1
    rw [h]
    rfl

/-- C6 amended: in `DataManager.get_stock_data`, a cache-write failure is
logged only and leaves both the returned mapping and the provider-call trace
unchanged; in `get_segmented_data`, however, a CSV write failure makes the
download attempt count as failed — the symbol is retried and, when every
attempt's write fails, omitted from the returned mapping. -/
theorem claim_C6_amended :
    (∀ (fetch : String → Nat → FetchResult) (now : Nat) (st : DMState)
        (syms : List String),
      (get_stock_data fetch false now st syms).result =
        (get_stock_data fetch true now st syms).result ∧
      (get_stock_data fetch false now st syms).calls =
        (get_stock_data fetch true now st syms).calls) ∧
    (∀ (fetch : String → Nat → FetchResult) (writeOk : String → Nat → Bool)
        (st : SegState) (now : Nat) (period : String),
      (∀ s a, writeOk s a = false) →
      should_update_data st.ledger now period = true →
      (get_segmented_data fetch writeOk st now period).data = []) := by
  constructor
  · intro fetch now st syms
    by_cases hv : cacheIsValid (dmMem st) now = true
    · rw [get_stock_data_valid hv, get_stock_data_valid hv]
      exact ⟨rfl, rfl⟩
    · have hv' : cacheIsValid (dmMem st) now = false := by simpa using hv
      simp only [get_stock_data, hv', Bool.false_eq_true, if_false]
      by_cases he : ((syms.filterMap (fetchSymbol fetch))).isEmpty = true
      · rw [if_pos he, if_pos he]
        exact ⟨rfl, rfl⟩
      · rw [if_neg he, if_neg he]
        exact ⟨rfl, rfl⟩
  · intro fetch writeOk st now period hw hupd
    exact (get_segmented_data_dropAll fetch writeOk st now period hupd
      (fun s => segRetry_writeFail (hw s) 1 MAX_RETRY_ATTEMPTS)).1

/-- C6 witness: a concrete `get_stock_data` call returns the same mapping
whether or not persistence succeeds, and a concrete all-writes-failing
segmented call returns the empty mapping. -/
theorem claim_C6_witness :
    (get_stock_data (fun _ _ => FetchResult.ok [rawA]) false 0 ⟨none, none⟩
        ["COP"]).result =
      (get_stock_data (fun _ _ => FetchResult.ok [rawA]) true 0 ⟨none, none⟩
        ["COP"]).result ∧
    (get_segmented_data (fun _ _ => FetchResult.ok [rawA]) (fun _ _ => false)
      ⟨[], []⟩ 0 "1mo").data = [] :=
  ⟨(claim_C6_amended.1 (fun _ _ => FetchResult.ok [rawA]) 0 ⟨none, none⟩
      ["COP"]).1,
    claim_C6_amended.2 (fun _ _ => FetchResult.ok [rawA]) (fun _ _ => false)
      ⟨[], []⟩ 0 "1mo" (fun _ _ => rfl) rfl⟩

/-- C7: calling `get_stock_data` twice in immediate succession while the
cache is fresh returns the identical mapping both times and performs zero
provider calls in either invocation — in particular at most one provider
call per symbol across the two invocations. -/
theorem claim_C7 (fetch : String → Nat → FetchResult) (saveOk : Bool)
    (now : Nat) (st : DMState) (syms : List String)
    (h : cacheIsValid (dmMem st) now = true) :
    (get_stock_data fetch saveOk now st syms).result =
      (get_stock_data fetch saveOk now
        (get_stock_data fetch saveOk now st syms).state syms).result ∧
    (get_stock_data fetch saveOk now st syms).calls = [] ∧
    (get_stock_data fetch saveOk now
      (get_stock_data fetch saveOk now st syms).state syms).calls = [] := by
  obtain ⟨c, hc⟩ := cacheIsValid_some h
  have hm : dmMem ⟨st.cacheFile, dmMem st⟩ = dmMem st := by
    rw [hc]
    rfl
  have h2 : cacheIsValid (dmMem ⟨st.cacheFile, dmMem st⟩) now = true := by
    rw [hm]
    exact h
  rw [get_stock_data_valid h]
  dsimp only
  rw [get_stock_data_valid h2]
  dsimp only
  refine ⟨?_, rfl, rfl⟩
  rw [hm]

/-- C7 witness: a fresh one-row cache is served twice with no provider call
and the same result. -/
theorem claim_C7_witness :
    cacheIsValid (dmMem ⟨none, some ⟨[dmRowA], some 0⟩⟩) 0 = true ∧
    ((get_stock_data (fun _ _ => FetchResult.err) true 0
        ⟨none, some ⟨[dmRowA], some 0⟩⟩ ["COP"]).result =
      (get_stock_data (fun _ _ => FetchResult.err) true 0
        (get_stock_data (fun _ _ => FetchResult.err) true 0
          ⟨none, some ⟨[dmRowA], some 0⟩⟩ ["COP"]).state ["COP"]).result ∧
    (get_stock_data (fun _ _ => FetchResult.err) true 0
      ⟨none, some ⟨[dmRowA], some 0⟩⟩ ["COP"]).calls = [] ∧
    (get_stock_data (fun _ _ => FetchResult.err) true 0
      (get_stock_data (fun _ _ => FetchResult.err) true 0
        ⟨none, some ⟨[dmRowA], some 0⟩⟩ ["COP"]).state ["COP"]).calls = []) :=
  ⟨rfl, claim_C7 (fun _ _ => FetchResult.err) true 0
    ⟨none, some ⟨[dmRowA], some 0⟩⟩ ["COP"] rfl⟩

/-- C8: on a fresh, non-empty snapshot, `get_stock_data` performs no provider
call at all, and a requested symbol with no rows in the snapshot is silently
omitted from the returned mapping. -/
theorem claim_C8 (fetch : String → Nat → FetchResult) (saveOk : Bool)
    (now : Nat) (st : DMState) (syms : List String) (s : String)
    (h : cacheIsValid (dmMem st) now = true)
    (hrows : (((dmMem st).getD ⟨[], none⟩).rows).filter
      (fun r => decide (r.symbol = s)) = []) :
    (get_stock_data fetch saveOk now st syms).calls = [] ∧
    lookupSeries (get_stock_data fetch saveOk now st syms).result s = none := by
  rw [get_stock_data_valid h]
  exact ⟨rfl, lookupSeries_process_data_none syms hrows⟩

/-- C8 witness: a fresh snapshot holding only "COP" rows yields no provider
call and no "EOG" entry. -/
theorem claim_C8_witness :
    cacheIsValid (dmMem ⟨none, some ⟨[dmRowA], some 0⟩⟩) 0 = true ∧
    ((get_stock_data (fun _ _ => FetchResult.err) true 0
        ⟨none, some ⟨[dmRowA], some 0⟩⟩ ["EOG"]).calls = [] ∧
      lookupSeries (get_stock_data (fun _ _ => FetchResult.err) true 0
        ⟨none, some ⟨[dmRowA], some 0⟩⟩ ["EOG"]).result "EOG" = none) :=
  ⟨rfl, claim_C8 (fun _ _ => FetchResult.err) true 0
    ⟨none, some ⟨[dmRowA], some 0⟩⟩ ["EOG"] "EOG" rfl (by decide)⟩

/-- C9: on the stale-or-empty path with at least one successful symbol, the
in-memory snapshot is replaced wholesale by the rows fetched in this call,
stamped with the current time; when persistence succeeds the cache file
equals that same snapshot; and every row of the new snapshot belongs to a
currently requested symbol whose fetch succeeded — no previously cached row
for another symbol survives. -/
theorem claim_C9 (fetch : String → Nat → FetchResult) (saveOk : Bool)
    (now : Nat) (st : DMState) (syms : List String)
    (hv : cacheIsValid (dmMem st) now = false)
    (hne : syms.filterMap (fetchSymbol fetch) ≠ []) :
    (get_stock_data fetch saveOk now st syms).state.memData =
      some ⟨(syms.filterMap (fetchSymbol fetch)).flatten, some now⟩ ∧
    (saveOk = true →
      (get_stock_data fetch saveOk now st syms).state.cacheFile =
        some ⟨(syms.filterMap (fetchSymbol fetch)).flatten, some now⟩) ∧
    (∀ r ∈ (syms.filterMap (fetchSymbol fetch)).flatten,
      r.symbol ∈ syms ∧ fetchSymbol fetch r.symbol ≠ none) := by
  have he : (syms.filterMap (fetchSymbol fetch)).isEmpty = false := by
    simpa [List.isEmpty_iff] using hne
  rw [get_stock_data_stale hv he]
  refine ⟨rfl, fun hs => by rw [hs]; rfl, ?_⟩
  intro r hr
  rw [List.mem_flatten] at hr
  obtain ⟨l, hl, hrl⟩ := hr
  rw [List.mem_filterMap] at hl
  obtain ⟨s2, hs2, hfs2⟩ := hl
  have hsym := fetchSymbol_some_symbol hfs2 hrl
  rw [hsym]
  refine ⟨hs2, ?_⟩
  rw [hfs2]
  simp

/-- C9 witness: a stale empty cache plus one successful symbol produces a
snapshot holding exactly the freshly fetched rows. -/
theorem claim_C9_witness :
    (get_stock_data (fun _ _ => FetchResult.ok [rawA]) true 5 ⟨none, none⟩
        ["COP"]).state.memData =
      some ⟨(List.filterMap (fetchSymbol (fun _ _ => FetchResult.ok [rawA]))
        ["COP"]).flatten, some 5⟩ :=
  (claim_C9 (fun _ _ => FetchResult.ok [rawA]) true 5 ⟨none, none⟩ ["COP"]
    rfl (by decide)).1

end DashFin
